import Mathlib

/-!
Verification of the sink-writer subsystem of the cryptofeed backends slice
(`cryptofeed/backends/mixins/customize_mixin.py`, `cryptofeed/backends/kafka.py`,
`cryptofeed/backends/redis.py`), shallowly embedded in Lean.

Python strings are modelled by `String`, Python dicts by ordered association
lists (`alGet`/`alSet` mirror dict lookup and dict item assignment), Python
values by `PyVal`, and Python exceptions by `Except PyErr`.  `SystemExit` is
the `PyErr.systemExit` constructor.  All definitions are transcribed from the
source files; the only external collaborators that are modelled at their
interface are the serializer (`yapic.json`), the wire clients (aiokafka and
aioredis) and `BackendQueue.stop`/`read_queue` (whose module is not part of
this slice).
-/

/-! ### Python string primitives (ASCII), modelled over `String.data` -/

/-- Python `str.upper` restricted to ASCII input (all strings in this slice
are ASCII). -/
def pyUpper (s : String) : String := ⟨s.data.map Char.toUpper⟩

/-- Python `str.lower` restricted to ASCII input. -/
def pyLower (s : String) : String := ⟨s.data.map Char.toLower⟩

/-- Helper for `pyTitle`: the boolean records whether the previous character
was cased (for ASCII: a letter). -/
def pyTitleAux : Bool → List Char → List Char
  | _, [] => []
  | prevCased, c :: t =>
    if c.isAlpha then
      (if prevCased then c.toLower else c.toUpper) :: pyTitleAux true t
    else
      c :: pyTitleAux false t

/-- Python `str.title` restricted to ASCII input: the first letter of every
letter run is uppercased, the remaining letters lowercased. -/
def pyTitle (s : String) : String := ⟨pyTitleAux false s.data⟩

/-- Python `str.islower` (ASCII): at least one letter, and no uppercase
letter. -/
def pyIsLower (s : String) : Bool :=
  s.data.any (fun c => c.isAlpha) && s.data.all (fun c => !c.isAlpha || c.isLower)

/-- Python `str.isupper` (ASCII): at least one letter, and no lowercase
letter. -/
def pyIsUpper (s : String) : Bool :=
  s.data.any (fun c => c.isAlpha) && s.data.all (fun c => !c.isAlpha || c.isUpper)

/-- Helper for `pyIsTitle`: uppercase letters may only follow uncased
characters, lowercase letters may only follow cased characters. -/
def pyIsTitleAux : Bool → List Char → Bool
  | _, [] => true
  | prevCased, c :: t =>
    if c.isUpper then !prevCased && pyIsTitleAux true t
    else if c.isLower then prevCased && pyIsTitleAux true t
    else pyIsTitleAux false t

/-- Python `str.istitle` (ASCII). -/
def pyIsTitle (s : String) : Bool :=
  s.data.any (fun c => c.isAlpha) && pyIsTitleAux false s.data

/-- Does the first list match at the head of the second list? -/
def leadMatch : List Char → List Char → Bool
  | [], _ => true
  | _ :: _, [] => false
  | a :: as, b :: bs => a == b && leadMatch as bs

/-- Substring membership on char lists, scanning left to right. -/
def subIn (pat : List Char) : List Char → Bool
  | [] => pat.isEmpty
  | c :: t => leadMatch pat (c :: t) || subIn pat t

/-- Python `word in s` (substring containment). -/
def pyIn (word s : String) : Bool := subIn word.data s.data

/-- Python `str.replace`, non-overlapping, left to right.  The callers in
this slice always pass a non-empty pattern (a cased keyword); the behaviour
on an empty pattern is therefore irrelevant here (Python would interleave
the replacement between all characters, this model returns a crude variant
that is never consulted). -/
def replaceAux (pat rep : List Char) : Nat → List Char → List Char
  | _, [] => []
  | 0, s => s
  | fuel + 1, c :: t =>
    if leadMatch pat (c :: t) then
      rep ++ replaceAux pat rep fuel (t.drop (pat.length - 1))
    else
      c :: replaceAux pat rep fuel t

/-- Python `s.replace(pat, rep)`.  Each recursion step of `replaceAux`
consumes at least one character of the subject, so fuel `s.length` is always
enough and the fuel-exhausted arm is unreachable. -/
def pyReplace (s pat rep : String) : String :=
  ⟨replaceAux pat.data rep.data s.data.length s.data⟩


/-- Python `'-'.join(parts)`. -/
def joinDash : List String → String
  | [] => ""
  | [s] => s
  | s :: rest => s ++ "-" ++ joinDash rest

/-! ### Python values, dicts and exceptions -/

/-- A Python value as it occurs in the records of this slice: a string, an
integer, a boolean or a nested dict (ordered field list). -/
inductive PyVal where
  | str (s : String)
  | num (n : Int)
  | bool (b : Bool)
  | obj (fields : List (String × PyVal))

mutual

/-- Structural equality test for `PyVal` (the derive handler does not support
this nested inductive). -/
def PyVal.beq : PyVal → PyVal → Bool
  | .str a, .str b => a == b
  | .num a, .num b => a == b
  | .bool a, .bool b => a == b
  | .obj a, .obj b => PyVal.beqFields a b
  | _, _ => false

/-- Structural equality test for field lists of `PyVal.obj`. -/
def PyVal.beqFields : List (String × PyVal) → List (String × PyVal) → Bool
  | [], [] => true
  | (k, v) :: t, (k', v') :: t' => k == k' && PyVal.beq v v' && PyVal.beqFields t t'
  | _, _ => false

end

mutual

theorem PyVal.beq_iff : ∀ a b : PyVal, PyVal.beq a b = true ↔ a = b
  | .str a, .str b => by simp [PyVal.beq]
  | .str _, .num _ => by simp [PyVal.beq]
  | .str _, .bool _ => by simp [PyVal.beq]
  | .str _, .obj _ => by simp [PyVal.beq]
  | .num _, .str _ => by simp [PyVal.beq]
  | .num a, .num b => by simp [PyVal.beq]
  | .num _, .bool _ => by simp [PyVal.beq]
  | .num _, .obj _ => by simp [PyVal.beq]
  | .bool _, .str _ => by simp [PyVal.beq]
  | .bool _, .num _ => by simp [PyVal.beq]
  | .bool a, .bool b => by simp [PyVal.beq]
  | .bool _, .obj _ => by simp [PyVal.beq]
  | .obj _, .str _ => by simp [PyVal.beq]
  | .obj _, .num _ => by simp [PyVal.beq]
  | .obj _, .bool _ => by simp [PyVal.beq]
  | .obj a, .obj b => by
      simp [PyVal.beq, PyVal.beqFields_iff a b]

theorem PyVal.beqFields_iff :
    ∀ a b : List (String × PyVal), PyVal.beqFields a b = true ↔ a = b
  | [], [] => by simp [PyVal.beqFields]
  | [], _ :: _ => by simp [PyVal.beqFields]
  | _ :: _, [] => by simp [PyVal.beqFields]
  | (k, v) :: t, (k', v') :: t' => by
      simp [PyVal.beqFields, PyVal.beq_iff v v', PyVal.beqFields_iff t t',
        Prod.ext_iff, and_assoc]

end

instance : DecidableEq PyVal := fun a b => decidable_of_iff _ (PyVal.beq_iff a b)

/-- A record handed to a writer: a Python dict, field name to value, in
insertion order. -/
abbrev Record := List (String × PyVal)

/-- The Python exceptions this slice can raise. -/
inductive PyErr where
  | typeError
  | keyError
  | systemExit
deriving DecidableEq, Repr

instance {ε α : Type} [DecidableEq ε] [DecidableEq α] : DecidableEq (Except ε α) :=
  fun a b =>
    match a, b with
    | .ok x, .ok y => decidable_of_iff (x = y) (by simp)
    | .error x, .error y => decidable_of_iff (x = y) (by simp)
    | .ok _, .error _ => isFalse (fun h => by cases h)
    | .error _, .ok _ => isFalse (fun h => by cases h)

/-- Python `d.get(k)` / `d[k]` lookup: first (unique) matching key. -/
def alGet {α : Type} : List (String × α) → String → Option α
  | [], _ => none
  | (k', v) :: rest, k => if k' == k then some v else alGet rest k

/-- Python `d[k] = v`: overwrite in place if the key exists (keeping its
position), otherwise append. -/
def alSet {α : Type} : List (String × α) → String → α → List (String × α)
  | [], k, v => [(k, v)]
  | (k', v') :: rest, k, v =>
    if k' == k then (k', v) :: rest else (k', v') :: alSet rest k v


/-! ### Serialization model (external collaborator `yapic.json`)

The wire serializer is an external collaborator; it is modelled at its
interface as an injective-enough flat rendering.  No claim depends on the
exact bytes, only on strings being produced. -/

mutual

/-- Model of `json.dumps` on a `PyVal`. -/
def jsonDumpsVal : PyVal → String
  | .str s => "\"" ++ s ++ "\""
  | .num n => toString n
  | .bool b => if b then "true" else "false"
  | .obj fs => "\x7b" ++ jsonDumpsFields fs ++ "\x7d"

/-- Model of `json.dumps` on the field list of a dict. -/
def jsonDumpsFields : List (String × PyVal) → String
  | [] => ""
  | [(k, v)] => "\"" ++ k ++ "\":" ++ jsonDumpsVal v
  | (k, v) :: rest => "\"" ++ k ++ "\":" ++ jsonDumpsVal v ++ "," ++ jsonDumpsFields rest

end

/-- Model of `json.dumps` / `json.dumpb` applied to a whole record (the
distinction between text and bytes is immaterial to this model). -/
def jsonDumpsRecord (r : Record) : String := jsonDumpsVal (.obj r)

/-- Model of Python builtin `str` applied to a record value (used by the
stream writer on the `closed` field, which is a boolean in this slice). -/
def pyStr : PyVal → String
  | .str s => s
  | .num n => toString n
  | .bool b => if b then "True" else "False"
  | .obj fs => jsonDumpsVal (.obj fs)

/-! ### `CustomizeMixin` (cryptofeed/backends/mixins/customize_mixin.py) -/

/-- `CustomizeMixin.STANDARD_KEYWORDS`. -/
def STANDARD_KEYWORDS : List String := ["exchange", "channel"]

/-- `CustomizeMixin.DYNAMIC_KEYWORDS`. -/
def DYNAMIC_KEYWORDS : List String :=
  ["symbol", "side", "type", "status", "interval", "client_order_id",
   "account", "currency", "order_id", "liquidity"]

/-- A per-message-kind schema: the `strings` / `others` partition of
`CustomizeMixin.VALID_ATTR`. -/
structure Schema where
  strings : List String
  others : List String
deriving DecidableEq, Repr

/-- `CustomizeMixin.VALID_ATTR`, keyed by the channel name. -/
def VALID_ATTR : String → Option Schema
  | "trades" => some ⟨["exchange", "symbol", "side", "id", "type"],
      ["price", "amount", "timestamp", "raw"]⟩
  | "funding" => some ⟨["exchange", "symbol"],
      ["mark_price", "rate", "next_funding_time", "predicted_rate", "timestamp", "raw"]⟩
  | "book" => some ⟨["exchange", "symbol"],
      ["book", "delta", "sequence_number", "checksum", "timestamp", "raw"]⟩
  | "ticker" => some ⟨["exchange", "symbol"], ["bid", "ask", "timestamp", "raw"]⟩
  | "open_interest" => some ⟨["exchange", "symbol"], ["open_interest", "timestamp", "raw"]⟩
  | "liquidations" => some ⟨["exchange", "symbol", "side", "id", "status"],
      ["quantity", "price", "timestamp", "raw"]⟩
  | "candles" => some ⟨["exchange", "symbol", "interval"],
      ["start", "stop", "trades", "open", "close", "high", "low", "volume",
       "closed", "timestamp", "raw"]⟩
  | "order_info" => some ⟨["exchange", "symbol", "id", "client_order_id", "side",
      "status", "type", "account"],
      ["price", "amount", "remaining", "timestamp", "raw"]⟩
  | "transactions" => some ⟨["exchange", "currency", "type", "status"],
      ["amount", "timestamp", "raw"]⟩
  | "balances" => some ⟨["exchange", "currency"], ["balance", "reserved", "raw"]⟩
  | "fills" => some ⟨["exchange", "symbol", "side", "id", "order_id", "liquidity",
      "type", "account"],
      ["price", "amount", "fee", "timestamp", "raw"]⟩
  | _ => none

/-- `CustomizeMixin._case_generator` on a list of words: for each word, its
upper, lower and title casings, in that order. -/
def _case_generator (words : List String) : List String :=
  words.flatMap (fun w => [pyUpper w, pyLower w, pyTitle w])

/-- The loop body of `CustomizeMixin.valid_template`: each lowercased keyword
found in the template must be a string field of the channel
(`VALID_ATTR[channel_name]` is only consulted when at least one keyword was
found, as in the source). -/
def validTemplateLoop (channel_name : String) : List String → String → Except PyErr String
  | [], tpl => .ok tpl
  | k :: ks, tpl =>
    match VALID_ATTR channel_name with
    | none => .error .keyError
    | some sch =>
      if sch.strings.contains k then validTemplateLoop channel_name ks tpl
      else .error .systemExit

/-- `CustomizeMixin.valid_template(str_type, user_template)` for an instance
whose class attribute `channel_name` is the first argument.  Raises
`SystemExit` when the template contains a cased dynamic keyword that is not a
string field of the channel; otherwise returns the template unchanged.
`str_type` is only interpolated into the log message. -/
def valid_template (channel_name str_type user_template : String) : Except PyErr String :=
  let keys_in_template :=
    ((_case_generator DYNAMIC_KEYWORDS).filter (fun w => pyIn w user_template)).map pyLower
  validTemplateLoop channel_name keys_in_template user_template

/-- The loop body of `CustomizeMixin.valid_targets` over the keys of the
user-supplied dict. -/
def validTargetsLoop (channel_name : String) : List String → Except PyErr Unit
  | [] => .ok ()
  | k :: ks =>
    match VALID_ATTR channel_name with
    | none => .error .keyError
    | some sch =>
      if (sch.strings ++ sch.others).contains k then validTargetsLoop channel_name ks
      else .error .systemExit

/-- `CustomizeMixin.valid_targets`: every key of `data_targets` must be a
field (string or other) of the channel. -/
def valid_targets (channel_name : String) (data_targets : List (String × String)) :
    Except PyErr (List (String × String)) :=
  (validTargetsLoop channel_name (data_targets.map (fun kv => kv.1))).map
    (fun _ => data_targets)

/-- The per-instance template-engine state: the `custom_strings` cache and
the `custom_string_keys` lists set up by `_check_dynamic`. -/
structure EngState where
  custom_strings : List (String × String)
  custom_string_keys : List (String × List String)
deriving DecidableEq, Repr

/-- The state of a freshly constructed sink instance (both dicts empty). -/
def freshEng : EngState := ⟨[], []⟩

/-- The instance data of `CustomizeMixin` that the engine reads: the
`channel_name` class attribute of the concrete callback. -/
structure MixCfg where
  channel_name : String
deriving DecidableEq, Repr

/-- The three casing functions `_check_case` can select. -/
inductive CaseFn where
  | lower
  | title
  | upper
deriving DecidableEq, Repr

/-- Application of the function selected by `_check_case`. -/
def applyCase : CaseFn → String → String
  | .lower => pyLower
  | .title => pyTitle
  | .upper => pyUpper

/-- `CustomizeMixin._check_case`: classify the casing of a template
occurrence; mixed casings fall through all three branches and Python returns
`None`. -/
def _check_case (item : String) : Option CaseFn :=
  if pyIsLower item then some .lower
  else if pyIsTitle item then some .title
  else if pyIsUpper item then some .upper
  else none

/-- `CustomizeMixin._find_swaps`: the cased keyword occurrences (upper, lower
or title form, in `_case_generator` order) that occur as substrings of the
template. -/
def _find_swaps (user_template : String) (dynamic : Bool) : List String :=
  let check_list := if dynamic then DYNAMIC_KEYWORDS else STANDARD_KEYWORDS
  (_case_generator check_list).filter (fun word => pyIn word user_template)

/-- `CustomizeMixin._swap_items`: successively replace each found occurrence
by the correspondingly cased record value (`data.get(item.lower(),
channel_name)`).  A `None` from `_check_case` (never reached from
`_find_swaps`) or a non-string record value raises `TypeError`. -/
def _swap_items (cfg : MixCfg) (data : Record) : String → List String → Except PyErr String
  | altered, [] => .ok altered
  | altered, item :: rest =>
    match _check_case item with
    | none => .error .typeError
    | some fc =>
      match alGet data (pyLower item) with
      | some (.str v) =>
          _swap_items cfg data (pyReplace altered item (applyCase fc v)) rest
      | some _ => .error .typeError
      | none =>
          _swap_items cfg data (pyReplace altered item (applyCase fc cfg.channel_name)) rest

/-- `CustomizeMixin._customize_string`.  In the dynamic case the source also
returns the lowercased swap list; in the static case this model returns `[]`
(the source returns only the string there). -/
def _customize_string (cfg : MixCfg) (user_template : String) (data : Record)
    (dynamic : Bool) : Except PyErr (String × List String) :=
  let swap_list := _find_swaps user_template dynamic
  match _swap_items cfg data user_template swap_list with
  | .error e => .error e
  | .ok custom_string =>
    .ok (custom_string, if dynamic then swap_list.map pyLower else [])

/-- The list computed (and stored) by `CustomizeMixin._check_dynamic`: the
lowercased cased dynamic keywords found in the intermediate string. -/
def checkDynKeys (user_str : String) : List String :=
  ((_case_generator DYNAMIC_KEYWORDS).filter (fun item => pyIn item user_str)).map pyLower

/-- Python truthiness of an optional string (`None` and `""` are falsy). -/
def truthyOpt : Option String → Bool
  | some s => !(s == "")
  | none => false

/-- The values fetched while building the dynamic-form retrieval key
`f"{str_type}-{'-'.join([data.get(key) for key in ...])}"`: a missing key
gives Python `None` and a non-string value is possible too; either case makes
`'-'.join` raise `TypeError`. -/
def retrKeyVals (data : Record) : List String → Except PyErr (List String)
  | [] => .ok []
  | k :: ks =>
    match alGet data k with
    | some (.str s) => (retrKeyVals data ks).map (fun vs => s :: vs)
    | some _ => .error .typeError
    | none => .error .typeError

/-- Python `[data[key] for key in keys]`: `KeyError` on a missing key. -/
def getItems (data : Record) : List String → Except PyErr (List PyVal)
  | [] => .ok []
  | k :: ks =>
    match alGet data k with
    | some v => (getItems data ks).map (fun vs => v :: vs)
    | none => .error .keyError

/-- `'-'.join` over already-fetched values: `TypeError` unless all are
strings. -/
def strJoinVals : List PyVal → Except PyErr (List String)
  | [] => .ok []
  | .str s :: vs => (strJoinVals vs).map (fun ss => s :: ss)
  | _ :: _ => .error .typeError

/-- The values interpolated into the dynamic cache key on the store side
(`f"{str_type}-{'-'.join([data[key] for key in key_list])}"`): the whole list
comprehension runs first (raising `KeyError` on a missing key), then the join
type-checks the values. -/
def storeKeyVals (data : Record) (keys : List String) : Except PyErr (List String) :=
  match getItems data keys with
  | .error e => .error e
  | .ok vs => strJoinVals vs

/-- The result of one `get_formatted_string` call: the returned value (`none`
models the implicit Python `None` returned on the `KeyError` path), the
engine state after the call, whether the string was served from the
`custom_strings` cache, and whether `self.stop()` was called. -/
structure GFSOut where
  result : Option String
  st : EngState
  fromCache : Bool
  stopped : Bool
deriving DecidableEq, Repr

/-- `CustomizeMixin.get_formatted_string(str_type, user_template, data)`.
The two cache probes mirror the short-circuiting `or` on line 60 of the
source: the dynamic-form key is only built when the static probe is falsy,
and an empty cached string is falsy and therefore treated as a miss. -/
def get_formatted_string (cfg : MixCfg) (st : EngState) (str_type : String)
    (user_template : Option String) (data : Record) : Except PyErr GFSOut :=
  let probeA := alGet st.custom_strings str_type
  if truthyOpt probeA then
    .ok ⟨probeA, st, true, false⟩
  else
    match retrKeyVals data ((alGet st.custom_string_keys str_type).getD []) with
    | .error e => .error e
    | .ok vals =>
      let probeB := alGet st.custom_strings (str_type ++ "-" ++ joinDash vals)
      if truthyOpt probeB then
        .ok ⟨probeB, st, true, false⟩
      else
        match user_template with
        | none =>
          .ok ⟨some cfg.channel_name,
            ⟨alSet st.custom_strings str_type cfg.channel_name, st.custom_string_keys⟩,
            false, false⟩
        | some tpl =>
          if tpl == "" then
            -- `if not user_template` also treats the empty template as absent
            .ok ⟨some cfg.channel_name,
              ⟨alSet st.custom_strings str_type cfg.channel_name, st.custom_string_keys⟩,
              false, false⟩
          else
            match _customize_string cfg tpl data false with
            | .error e => .error e
            | .ok (standard_string, _) =>
              let kl := checkDynKeys standard_string
              let st1 : EngState :=
                ⟨st.custom_strings, alSet st.custom_string_keys str_type kl⟩
              if kl.isEmpty then
                .ok ⟨some standard_string,
                  ⟨alSet st1.custom_strings str_type standard_string, st1.custom_string_keys⟩,
                  false, false⟩
              else
                match _customize_string cfg standard_string data true with
                | .error e => .error e
                | .ok (dynamic_string, key_list) =>
                  match storeKeyVals data key_list with
                  | .error .keyError =>
                    -- `except KeyError`: log the message and `self.stop()`;
                    -- the function then falls off the end and returns None
                    .ok ⟨none, st1, false, true⟩
                  | .error e => .error e
                  | .ok vals2 =>
                    .ok ⟨some dynamic_string,
                      ⟨alSet st1.custom_strings
                        (str_type ++ "-" ++ joinDash vals2) dynamic_string,
                       st1.custom_string_keys⟩,
                      false, false⟩

/-- `CustomizeMixin.customize_data_package`:
`{v: data[k] for k, v in self.data_targets.items()}` as a left fold of dict
insertions starting from the empty dict. -/
def cdpLoop (data : Record) : List (String × String) → Record → Except PyErr Record
  | [], acc => .ok acc
  | (k, v) :: rest, acc =>
    match alGet data k with
    | none => .error .keyError
    | some val => cdpLoop data rest (alSet acc v val)

/-- `CustomizeMixin.customize_data_package(data)` for a configured
`data_targets`. -/
def customize_data_package (data_targets : List (String × String)) (data : Record) :
    Except PyErr Record :=
  cdpLoop data data_targets []

/-- Successive `get_formatted_string` calls for one purpose over a stream of
records (the writer calls the engine once per record), threading the engine
state. -/
def resolveSeq (cfg : MixCfg) (str_type : String) (user_template : Option String) :
    EngState → List Record → Except PyErr (List (Option String) × EngState)
  | st, [] => .ok ([], st)
  | st, d :: ds =>
    match get_formatted_string cfg st str_type user_template d with
    | .error e => .error e
    | .ok o =>
      match resolveSeq cfg str_type user_template o.st ds with
      | .error e => .error e
      | .ok (rs, st2) => .ok (o.result :: rs, st2)

/-- The `if self.data_targets: ... customize_data_package(...)` step shared
by all writer loops: shape when a target spec is configured, otherwise pass
the record through. -/
def shapeTargets (targets : Option (List (String × String))) (data : Record) :
    Except PyErr Record :=
  match targets with
  | some t => customize_data_package t data
  | none => .ok data

/-! ### Kafka backend (cryptofeed/backends/kafka.py) -/

/-- The slice of the `KafkaCallback` construction arguments the engine
reads. -/
structure KafkaCfg where
  channel_name : String
  topic_template : Option String
  key_template : Option String
  data_targets : Option (List (String × String))
deriving DecidableEq, Repr

/-- The two producer-config entries the writer consults
(`producer_config.get('value_serializer')` / `...('key_serializer')`). -/
structure KafkaFlags where
  has_value_serializer : Bool
  has_key_serializer : Bool
deriving DecidableEq, Repr

/-- `KafkaCallback.__init__` line 59: `self.valid_template(key, 'key') if key
else None`.  Note the argument order actually used by the source: the user
key is passed as `str_type` and the literal string `"key"` as the template to
validate. -/
def kafkaInitKeyTemplate (channel_name : String) (key : Option String) :
    Option (Except PyErr String) :=
  key.map (fun k => valid_template channel_name k "key")

/-- `KafkaCallback.__init__` line 60: `self.valid_template(topic, 'topic') if
topic else None`, with the same argument order as the source. -/
def kafkaInitTopicTemplate (channel_name : String) (topic : Option String) :
    Option (Except PyErr String) :=
  topic.map (fun t => valid_template channel_name t "topic")

/-- `RedisCallback.__init__` line 41: `self.valid_template('key', key) if key
else None` (the documented argument order). -/
def redisInitKeyTemplate (channel_name : String) (key : Option String) :
    Option (Except PyErr String) :=
  key.map (fun k => valid_template channel_name "key" k)

/-- A value on its way to the wire: either bytes produced by
`_default_serializer`, or the untouched Python object handed to a
user-supplied serializer (`value = data if value_serializer else ...`). -/
inductive Wire where
  | bytes (s : String)
  | objVal (r : Record)
  | strVal (s : String)
  | pyNone
deriving DecidableEq

/-- `KafkaCallback._default_serializer`: JSON bytes for a dict, utf-8 bytes
for a string, `TypeError` otherwise (in particular for the `None` a stopped
`get_formatted_string` call returns). -/
def default_serializer : Wire → Except PyErr Wire
  | .objVal r => .ok (.bytes (jsonDumpsRecord r))
  | .strVal s => .ok (.bytes s)
  | _ => .error .typeError

/-- One message handed to `producer.send(topic, value, key, partition)`.
`KafkaCallback.partition` always returns `None`. -/
structure KafkaMsg where
  topic : Option String
  value : Wire
  key : Wire
  partition : Option Int
deriving DecidableEq

/-- The per-record preparation of `KafkaCallback.writer` (lines 106-118):
routing strings first, then optional data shaping, then serialization.
Returns the prepared message, the engine state after the two template
resolutions, whether `stop()` was called, and the final state of the record
object drawn from the queue (the body never assigns into it: `data =
self.customize_data_package(data)` rebinds the local name). -/
structure KafkaPrep where
  st : EngState
  stopped : Bool
  inputAfter : Record
  msg : KafkaMsg
deriving DecidableEq

/-- The key-template conditional of `KafkaCallback.writer` line 109:
`self.get_formatted_string('key', self.key_template, data) if
self.key_template else self.channel_name`. -/
def kafkaResolveKey (cfg : KafkaCfg) (st : EngState) (data : Record) :
    Except PyErr (Option String × EngState × Bool) :=
  match cfg.key_template with
  | some _ =>
    match get_formatted_string ⟨cfg.channel_name⟩ st "key" cfg.key_template data with
    | .error e => .error e
    | .ok kOut => .ok (kOut.result, kOut.st, kOut.stopped)
  | none => .ok (some cfg.channel_name, st, false)

/-- An optional routing string as handed to the serializer: a stopped
`get_formatted_string` call returns Python `None`. -/
def wireOfKey : Option String → Wire
  | some s => .strVal s
  | none => .pyNone

/-- `value = data if ... value_serializer ... else self._default_serializer(data)`. -/
def serializeValue (flags : KafkaFlags) (shaped : Record) : Except PyErr Wire :=
  if flags.has_value_serializer then .ok (.objVal shaped)
  else default_serializer (.objVal shaped)

/-- `key = key if ... key_serializer ... else self._default_serializer(key)`. -/
def serializeKey (flags : KafkaFlags) (keyStr : Option String) : Except PyErr Wire :=
  if flags.has_key_serializer then .ok (wireOfKey keyStr)
  else default_serializer (wireOfKey keyStr)

def kafkaRecordPrep (cfg : KafkaCfg) (flags : KafkaFlags) (st : EngState)
    (data : Record) : Except PyErr KafkaPrep :=
  match get_formatted_string ⟨cfg.channel_name⟩ st "topic" cfg.topic_template data with
  | .error e => .error e
  | .ok tOut =>
    match kafkaResolveKey cfg tOut.st data with
    | .error e => .error e
    | .ok (keyStr, st2, kStopped) =>
      match shapeTargets cfg.data_targets data with
      | .error e => .error e
      | .ok shaped =>
        match serializeValue flags shaped with
        | .error e => .error e
        | .ok value =>
          match serializeKey flags keyStr with
          | .error e => .error e
          | .ok keyW =>
            .ok ⟨st2, tOut.stopped || kStopped, data,
              ⟨tOut.result, value, keyW, none⟩⟩

/-- The possible outcomes of `await producer.send(...)` followed by
`await send_future`, as far as the writer can observe them. -/
inductive SendOutcome where
  | acked
  | requestTimedOut
  | nodeNotReady
  | otherError
deriving DecidableEq, Repr

/-- What the writer did with one record of a batch: published it, or caught
the send exception, logged it and moved on. -/
inductive RecOutcome where
  | published (m : KafkaMsg)
  | dropped (e : SendOutcome)
deriving DecidableEq

def RecOutcome.isPublished : RecOutcome → Bool
  | .published _ => true
  | .dropped _ => false

/-- The observable result of one drain iteration of `KafkaCallback.writer`
over a batch. -/
structure KafkaBatchOut where
  st : EngState
  running : Bool
  outcomes : List RecOutcome
deriving DecidableEq

/-- The `for index in range(len(updates))` loop of `KafkaCallback.writer`
(lines 105-127).  `send` gives the outcome of the `index`-th send of this
batch; the `try`/`except RequestTimedOutError`/`except NodeNotReadyError`/
`except Exception` block catches every send failure, logs it and continues
with the next record, while an exception raised outside the `try` block
propagates and kills the writer task (modelled by `.error`). -/
def kafkaBatchLoop (cfg : KafkaCfg) (flags : KafkaFlags) (send : Nat → SendOutcome) :
    Nat → EngState → Bool → List RecOutcome → List Record → Except PyErr KafkaBatchOut
  | _, st, running, acc, [] => .ok ⟨st, running, acc.reverse⟩
  | index, st, running, acc, data :: rest =>
    match kafkaRecordPrep cfg flags st data with
    | .error e => .error e
    | .ok prep =>
      let outcome : RecOutcome :=
        match send index with
        | .acked => .published prep.msg
        | e => .dropped e
      kafkaBatchLoop cfg flags send (index + 1) prep.st
        (running && !prep.stopped) (outcome :: acc) rest

/-- One drain iteration of `KafkaCallback.writer`: process every record of
the batch in arrival order. -/
def kafkaWriterBatch (cfg : KafkaCfg) (flags : KafkaFlags) (send : Nat → SendOutcome)
    (st : EngState) (running : Bool) (updates : List Record) : Except PyErr KafkaBatchOut :=
  kafkaBatchLoop cfg flags send 0 st running [] updates

/-- Outcome of one `await self.producer.start()` attempt, as decided by the
environment. -/
inductive AttemptResult where
  | started
  | connectionError
deriving DecidableEq, Repr

/-- Observable result of the `while not self.running` retry loop of
`KafkaCallback._connect`, bounded by a fuel that counts loop iterations. -/
inductive ConnectOutcome where
  /-- `self.running` became true after the given number of failed attempts,
  having slept the given total amount (10 units per failure). -/
  | connected (failures sleepTime : Nat)
  /-- Every attempt within the fuel bound failed: the loop is still retrying,
  with 10 units slept per failure. -/
  | stillRetrying (failures sleepTime : Nat)
deriving DecidableEq, Repr

/-- The retry loop of `KafkaCallback._connect` (lines 88-96): each
`KafkaConnectionError` is logged, followed by `await asyncio.sleep(10)`, and
the loop tries again; a successful start sets `self.running = True`. -/
def kafkaConnectLoop (attempt : Nat → AttemptResult) :
    Nat → Nat → Nat → ConnectOutcome
  | 0, n, slept => .stillRetrying n slept
  | fuel + 1, n, slept =>
    match attempt n with
    | .started => .connected n slept
    | .connectionError => kafkaConnectLoop attempt fuel (n + 1) (slept + 10)

/-- `KafkaCallback._connect` on a fresh instance (`self.producer is None`):
constructing `AIOKafkaProducer` with an invalid configuration raises
`TypeError`/`ValueError`, which the source converts to `SystemExit`;
otherwise the retry loop runs. -/
def kafkaConnect (producerConfigValid : Bool) (attempt : Nat → AttemptResult)
    (fuel : Nat) : Except PyErr ConnectOutcome :=
  if producerConfigValid then .ok (kafkaConnectLoop attempt fuel 0 0)
  else .error .systemExit

/-! ### Redis backend (cryptofeed/backends/redis.py) -/

/-- The slice of the `RedisCallback` construction arguments the engine
reads. -/
structure RedisCfg where
  channel_name : String
  key_template : Option String
  data_targets : Option (List (String × String))
deriving DecidableEq, Repr

/-- The `score_key='timestamp'` default of `RedisZSetCallback.__init__`:
the configured score key, or `"timestamp"` when the argument is omitted. -/
def zsetScoreKey (score_key_arg : Option String) : String :=
  score_key_arg.getD "timestamp"

/-- One `pipe.zadd(f"{key}", {json.dumps(update): score_key}, nx=True)`
command. -/
structure ZCmd where
  key : String
  member : String
  score : PyVal
  nx : Bool
deriving DecidableEq

/-- One drain iteration of `RedisZSetCallback.writer`: the commands queued on
the single non-transactional pipeline, executed by the single
`await pipe.execute()` after the loop. -/
structure ZBatchOut where
  st : EngState
  transaction : Bool
  cmds : List ZCmd
  executeCalls : Nat
  inputsAfter : List Record
deriving DecidableEq

/-- The routing key actually interpolated into `f"{key}"`: Python formats
`None` (returned by a stopped `get_formatted_string` call) as the string
`"None"`. -/
def fmtKey : Option String → String
  | some s => s
  | none => "None"

/-- The key-template conditional shared by the two Redis writer loops:
`self.get_formatted_string('key', self.key_template, update) if
self.key_template else self.channel_name`. -/
def redisResolveKey (cfg : RedisCfg) (st : EngState) (update : Record) :
    Except PyErr (Option String × EngState) :=
  match cfg.key_template with
  | some _ =>
    match get_formatted_string ⟨cfg.channel_name⟩ st "key" cfg.key_template update with
    | .error e => .error e
    | .ok kOut => .ok (kOut.result, kOut.st)
  | none => .ok (some cfg.channel_name, st)

/-- The per-record body of the `RedisZSetCallback.writer` loop (lines 66-73):
resolve the key, read the score from the record *before* any shaping, shape
if configured, and queue the `zadd`.  The body never assigns into the record
object, so its final state is the record itself. -/
def zsetRecordBody (cfg : RedisCfg) (score_key : String) (st : EngState)
    (update : Record) : Except PyErr (EngState × ZCmd × Record) :=
  match redisResolveKey cfg st update with
  | .error e => .error e
  | .ok (keyStr, st2) =>
    match alGet update score_key with
    | none => .error .keyError
    | some score =>
      match shapeTargets cfg.data_targets update with
      | .error e => .error e
      | .ok shaped =>
        .ok (st2, ⟨fmtKey keyStr, jsonDumpsRecord shaped, score, true⟩, update)

/-- The `for update in updates` loop of `RedisZSetCallback.writer`. -/
def zsetBatchLoop (cfg : RedisCfg) (score_key : String) :
    EngState → List ZCmd → List Record → List Record → Except PyErr ZBatchOut
  | st, accCmds, accInputs, [] => .ok ⟨st, false, accCmds.reverse, 1, accInputs.reverse⟩
  | st, accCmds, accInputs, update :: rest =>
    match zsetRecordBody cfg score_key st update with
    | .error e => .error e
    | .ok (st2, cmd, inputAfter) =>
      zsetBatchLoop cfg score_key st2 (cmd :: accCmds) (inputAfter :: accInputs) rest

/-- One drain iteration of `RedisZSetCallback.writer` over a batch: one
pipeline with `transaction=False`, one `execute` call. -/
def zsetWriterBatch (cfg : RedisCfg) (score_key : String) (st : EngState)
    (updates : List Record) : Except PyErr ZBatchOut :=
  zsetBatchLoop cfg score_key st [] [] updates

/-- The in-place re-serialization the `RedisStreamCallback.writer` loop body
performs on the record object drawn from the queue (lines 89-94):
`update['delta'] = json.dumps(update['delta'])`, with `book` and `closed` as
the `elif` fallbacks.  The returned record is the final state of the *input*
object. -/
def streamMutate (update : Record) : Record :=
  match alGet update "delta" with
  | some v => alSet update "delta" (.str (jsonDumpsVal v))
  | none =>
    match alGet update "book" with
    | some v => alSet update "book" (.str (jsonDumpsVal v))
    | none =>
      match alGet update "closed" with
      | some v => alSet update "closed" (.str (pyStr v))
      | none => update

/-- One `pipe.xadd(f"{key}", update)` command. -/
structure XCmd where
  key : String
  fields : Record
deriving DecidableEq

/-- The per-record body of the `RedisStreamCallback.writer` loop (lines
87-99): resolve the key, re-serialize `delta`/`book`/`closed` *in place* on
the input record, shape if configured (rebinding the local name), and queue
the `xadd`.  Returns the engine state, the queued command and the final
state of the input record object. -/
def streamRecordBody (cfg : RedisCfg) (st : EngState) (update : Record) :
    Except PyErr (EngState × XCmd × Record) :=
  match redisResolveKey cfg st update with
  | .error e => .error e
  | .ok (keyStr, st2) =>
    match shapeTargets cfg.data_targets (streamMutate update) with
    | .error e => .error e
    | .ok shaped =>
      .ok (st2, ⟨fmtKey keyStr, shaped⟩, streamMutate update)

/-! ### Association-list and string lemmas -/

theorem alGet_alSet_self {α : Type} (l : List (String × α)) (k : String) (v : α) :
    alGet (alSet l k v) k = some v := by
  induction l with
  | nil => simp [alSet, alGet]
  | cons p rest ih =>
    obtain ⟨k', v'⟩ := p
    by_cases h : k' = k
    · simp [alSet, alGet, h]
    · simp only [alSet, alGet, beq_iff_eq, h, if_false]
      exact ih

theorem alGet_alSet_ne {α : Type} (l : List (String × α)) (k k' : String) (v : α)
    (h : k' ≠ k) : alGet (alSet l k v) k' = alGet l k' := by
  induction l with
  | nil => simp [alSet, alGet, Ne.symm h]
  | cons p rest ih =>
    obtain ⟨k0, v0⟩ := p
    by_cases h0 : k0 = k
    · subst h0
      simp [alSet, alGet, Ne.symm h]
    · simp only [alSet, alGet, beq_iff_eq, h0, if_false]
      by_cases h1 : k0 = k'
      · simp [alGet, h1]
      · simp only [alGet, beq_iff_eq, h1, if_false]
        exact ih

theorem alSet_of_not_mem {α : Type} (l : List (String × α)) (k : String) (v : α)
    (h : ∀ p ∈ l, p.1 ≠ k) : alSet l k v = l ++ [(k, v)] := by
  induction l with
  | nil => simp [alSet]
  | cons p rest ih =>
    obtain ⟨k', v'⟩ := p
    have hk : k' ≠ k := h (k', v') (by simp)
    simp only [alSet, beq_iff_eq, hk, if_false, List.cons_append, List.cons.injEq, true_and]
    exact ih (fun q hq => h q (by simp [hq]))

theorem string_append_data (a b : String) : (a ++ b).data = a.data ++ b.data := by
  cases a
  cases b
  rfl

theorem string_length_append (a b : String) : (a ++ b).length = a.length + b.length := by
  show (a ++ b).data.length = a.data.length + b.data.length
  rw [string_append_data]
  exact List.length_append _ _

theorem ne_append_dash (p j : String) : p ≠ p ++ "-" ++ j := by
  intro h
  have hl : p.length = (p ++ "-" ++ j).length := congrArg String.length h
  rw [string_length_append, string_length_append] at hl
  have hdash : ("-" : String).length = 1 := rfl
  rw [hdash] at hl
  omega

/-! ### C5: case-preserving template resolution (concrete) -/

/-- C5: resolving the template "Exchange-SYMBOL-side" (no prior cache
entries) against a record with exchange "coinbase", symbol "BTC-USD" and
side "buy" returns exactly "Coinbase-BTC-USD-buy": the title-cased
occurrence renders its value title-cased, the upper-cased occurrence
upper-cased, the lower-cased occurrence lower-cased.  (The call also caches
the result under the dynamic key and records the dynamic fields used.) -/
theorem c5_case_preserving_resolution :
    get_formatted_string ⟨"trades"⟩ freshEng "key" (some "Exchange-SYMBOL-side")
      [("exchange", .str "coinbase"), ("symbol", .str "BTC-USD"), ("side", .str "buy")]
    = .ok ⟨some "Coinbase-BTC-USD-buy",
        ⟨[("key-BTC-USD-buy", "Coinbase-BTC-USD-buy")], [("key", ["symbol", "side"])]⟩,
        false, false⟩ := by
  decide

/-! ### C1: template validation at construction -/

/-- C1 (code bug): `KafkaCallback.__init__` passes the arguments of
`valid_template` swapped (`valid_template(key, 'key')` against the signature
`valid_template(str_type, user_template)`), so on a funding channel the
invalid key template "side" is accepted and the literal string "key" (resp.
"topic") is stored as the template, instead of failing with `SystemExit` as
the mixin does when called in the documented order (as `RedisCallback` line
41 does). -/
theorem c1_kafka_template_validation_arg_swap :
    kafkaInitKeyTemplate "funding" (some "side") = some (.ok "key")
    ∧ kafkaInitTopicTemplate "funding" (some "side") = some (.ok "topic")
    ∧ redisInitKeyTemplate "funding" (some "side") = some (.error .systemExit)
    ∧ valid_template "funding" "key" "side" = .error .systemExit
    ∧ valid_template "trades" "key" "Exchange-SYMBOL-side" = .ok "Exchange-SYMBOL-side" := by
  decide

/-! ### C9: mixed-case template occurrences -/

/-- C9 counterexample: the mixed-cased occurrence "SyMbOl" is *not*
substituted with the lower-cased record value (which would give "btc-buy");
it is left verbatim in the output, because `_find_swaps` only searches for
the upper, lower and title casings of each keyword. -/
theorem c9_counterexample_mixed_case_not_substituted :
    get_formatted_string ⟨"trades"⟩ freshEng "key" (some "SyMbOl-side")
      [("symbol", .str "btc"), ("side", .str "buy")]
    = .ok ⟨some "SyMbOl-buy",
        ⟨[("key-buy", "SyMbOl-buy")], [("key", ["side"])]⟩, false, false⟩
    ∧ some "SyMbOl-buy" ≠ some "btc-buy" := by
  decide

/-- C9 (amended): a token occurrence in a mixed casing is not recognized as
a token at all: it is left verbatim in the resolved string (neither
substituted nor case-adjusted).  Only exact all-lower, Title or ALL-UPPER
occurrences are ever selected for substitution: every element of a swap list
is one of the three `_case_generator` casings of a keyword. -/
theorem c9_mixed_case_occurrences_left_verbatim :
    (get_formatted_string ⟨"trades"⟩ freshEng "key" (some "SyMbOl-side")
        [("symbol", .str "btc"), ("side", .str "buy")]
      = .ok ⟨some "SyMbOl-buy",
          ⟨[("key-buy", "SyMbOl-buy")], [("key", ["side"])]⟩, false, false⟩)
    ∧ ∀ (tpl : String) (dyn : Bool) (w : String), w ∈ _find_swaps tpl dyn →
        ∃ kw, kw ∈ (if dyn then DYNAMIC_KEYWORDS else STANDARD_KEYWORDS)
          ∧ (w = pyUpper kw ∨ w = pyLower kw ∨ w = pyTitle kw) := by
  constructor
  · decide
  · intro tpl dyn w hw
    simp only [_find_swaps, List.mem_filter] at hw
    obtain ⟨hmem, _⟩ := hw
    simp only [_case_generator, List.mem_flatMap, List.mem_cons,
      List.not_mem_nil, or_false] at hmem
    obtain ⟨kw, hkw, hcase⟩ := hmem
    exact ⟨kw, hkw, by tauto⟩

/-- Witness for C9 at a concrete input. -/
theorem c9_witness :
    ("side" : String) ∈ _find_swaps "SyMbOl-side" true
    ∧ ∃ kw, kw ∈ (if true then DYNAMIC_KEYWORDS else STANDARD_KEYWORDS)
        ∧ (("side" : String) = pyUpper kw ∨ ("side" : String) = pyLower kw
            ∨ ("side" : String) = pyTitle kw) :=
  ⟨by decide,
    c9_mixed_case_occurrences_left_verbatim.2 "SyMbOl-side" true "side" (by decide)⟩

/-! ### C7: data shaping -/

/-- C7 counterexample: for the validated shaping spec mapping both `price`
and `amount` to the same destination name "p", the dict comprehension
overwrites the first entry, so the shaped record has a single key "p"
holding the `amount` value — not keys ["p", "p"] each holding the value of
its own source field, as the claim requires for every validated spec. -/
theorem c7_counterexample_duplicate_destinations :
    valid_targets "trades" [("price", "p"), ("amount", "p")]
      = .ok [("price", "p"), ("amount", "p")]
    ∧ customize_data_package [("price", "p"), ("amount", "p")]
        [("price", .num 1), ("amount", .num 2), ("timestamp", .num 3)]
      = .ok [("p", .num 2)]
    ∧ alGet [("p", PyVal.num 2)] "p" ≠ some (PyVal.num 1) := by
  decide

/-- The loop of `customize_data_package`, under distinct destination names:
each insertion hits a fresh key and therefore appends. -/
theorem cdpLoop_spec (data : Record) :
    ∀ (spec : List (String × String)) (acc : Record),
      (spec.map Prod.snd).Nodup →
      (∀ kv ∈ spec, (alGet data kv.1).isSome = true) →
      (∀ p ∈ acc, p.1 ∉ spec.map Prod.snd) →
      cdpLoop data spec acc
        = .ok (acc ++ spec.map (fun kv => (kv.2, (alGet data kv.1).getD (.str "")))) := by
  intro spec
  induction spec with
  | nil => intro acc _ _ _; simp [cdpLoop]
  | cons kv rest ih =>
    intro acc hnodup hpres hdisj
    obtain ⟨k, v⟩ := kv
    obtain ⟨val, hval⟩ := Option.isSome_iff_exists.mp (hpres (k, v) (by simp))
    have hfresh : ∀ p ∈ acc, p.1 ≠ v := by
      intro p hp
      have := hdisj p hp
      simp only [List.map_cons, List.mem_cons] at this
      tauto
    have hset : alSet acc v val = acc ++ [(v, val)] := alSet_of_not_mem acc v val hfresh
    have hnodup' : (rest.map Prod.snd).Nodup := by
      simp only [List.map_cons, List.nodup_cons] at hnodup
      exact hnodup.2
    have hvnot : v ∉ rest.map Prod.snd := by
      simp only [List.map_cons, List.nodup_cons] at hnodup
      exact hnodup.1
    have hdisj' : ∀ p ∈ acc ++ [(v, val)], p.1 ∉ rest.map Prod.snd := by
      intro p hp
      rcases List.mem_append.mp hp with hp | hp
      · have := hdisj p hp
        simp only [List.map_cons, List.mem_cons] at this
        tauto
      · simp only [List.mem_singleton] at hp
        subst hp
        exact hvnot
    have hpres' : ∀ kv ∈ rest, (alGet data kv.1).isSome = true :=
      fun q hq => hpres q (by simp [hq])
    simp only [cdpLoop, hval, hset]
    rw [ih (acc ++ [(v, val)]) hnodup' hpres' hdisj']
    simp [hval]

/-- C7 (amended): for every validated shaping spec *whose destination names
are pairwise distinct* and every record containing all of the spec's source
keys, the shaper yields a new record whose entries are exactly the spec's
destination names in the spec's iteration order, each holding the value read
from its source field; input fields not mentioned in the spec are absent.
(The amendment is forced by `c7_counterexample_duplicate_destinations`:
with a repeated destination name the later source overwrites the earlier
one.) -/
theorem c7_shaping_preserves_spec_order (channel : String)
    (spec : List (String × String)) (data : Record)
    (hvalid : valid_targets channel spec = .ok spec)
    (hnodup : (spec.map Prod.snd).Nodup)
    (hpres : ∀ kv ∈ spec, (alGet data kv.1).isSome = true) :
    customize_data_package spec data
      = .ok (spec.map (fun kv => (kv.2, (alGet data kv.1).getD (.str "")))) := by
  have := cdpLoop_spec data spec [] hnodup hpres (by intro p hp; cases hp)
  simpa [customize_data_package] using this

/-- Witness for C7 on the enumerated example: spec `{price: p, amount: a}`
applied to `{price: 1, amount: 2, timestamp: 3}` yields exactly
`[("p", 1), ("a", 2)]`. -/
theorem c7_witness :
    customize_data_package [("price", "p"), ("amount", "a")]
      [("price", .num 1), ("amount", .num 2), ("timestamp", .num 3)]
    = .ok [("p", .num 1), ("a", .num 2)] := by
  have h := c7_shaping_preserves_spec_order "trades" [("price", "p"), ("amount", "a")]
    [("price", .num 1), ("amount", .num 2), ("timestamp", .num 3)]
    (by decide) (by decide) (by decide)
  simpa using h

/-! ### C6: startup connection retry -/

/-- If every attempt fails with `KafkaConnectionError`, the retry loop is
still retrying after any number of iterations, sleeping 10 units per
failure. -/
theorem kafkaConnectLoop_all_failures (attempt : Nat → AttemptResult)
    (hfail : ∀ n, attempt n = .connectionError) :
    ∀ (fuel n slept : Nat),
      kafkaConnectLoop attempt fuel n slept = .stillRetrying (n + fuel) (slept + 10 * fuel) := by
  intro fuel
  induction fuel with
  | zero => intro n slept; simp [kafkaConnectLoop]
  | succ f ih =>
    intro n slept
    simp only [kafkaConnectLoop, hfail n]
    rw [ih (n + 1) (slept + 10)]
    congr 1 <;> omega

/-- C6: an invalid producer configuration terminates construction of the
connection with `SystemExit`; if instead the configuration is valid but the
broker is unreachable on every attempt, the writer keeps retrying with a
fixed 10-unit sleep per failed attempt for any number of loop iterations and
never reaches a fatal state (`.error`) due to unavailability. -/
theorem c6_connect_retry_and_fatal_config (attempt : Nat → AttemptResult) (fuel : Nat) :
    kafkaConnect false attempt fuel = .error .systemExit
    ∧ ((∀ n, attempt n = .connectionError) →
        kafkaConnect true attempt fuel = .ok (.stillRetrying fuel (10 * fuel))) := by
  constructor
  · simp [kafkaConnect]
  · intro hfail
    simp only [kafkaConnect, if_true]
    rw [kafkaConnectLoop_all_failures attempt hfail fuel 0 0]
    simp

/-- Witness for C6 with three loop iterations of an always-unreachable
broker. -/
theorem c6_witness :
    kafkaConnect true (fun _ => .connectionError) 3 = .ok (.stillRetrying 3 30)
    ∧ kafkaConnect false (fun _ => .connectionError) 3 = .error .systemExit :=
  ⟨(c6_connect_retry_and_fatal_config (fun _ => .connectionError) 3).2 (fun _ => rfl),
   (c6_connect_retry_and_fatal_config (fun _ => .connectionError) 3).1⟩

/-! ### C2: writers and in-place mutation of the input record -/

/-- The final state of the input record object after one iteration of the
stream-writer loop body is `streamMutate` of the input. -/
theorem streamRecordBody_input (cfg : RedisCfg) (st : EngState) (u : Record)
    (res : EngState × XCmd × Record) (h : streamRecordBody cfg st u = .ok res) :
    res.2.2 = streamMutate u := by
  cases hk : redisResolveKey cfg st u with
  | error e => simp [streamRecordBody, hk] at h
  | ok p =>
    obtain ⟨keyStr, st2⟩ := p
    cases hs : shapeTargets cfg.data_targets (streamMutate u) with
    | error e => simp [streamRecordBody, hk, hs] at h
    | ok shaped =>
      simp [streamRecordBody, hk, hs] at h
      rw [← h]

/-- The Kafka writer loop body never assigns into the record object drawn
from the queue. -/
theorem kafkaRecordPrep_input (cfg : KafkaCfg) (flags : KafkaFlags) (st : EngState)
    (d : Record) (out : KafkaPrep) (h : kafkaRecordPrep cfg flags st d = .ok out) :
    out.inputAfter = d := by
  cases ht : get_formatted_string ⟨cfg.channel_name⟩ st "topic" cfg.topic_template d with
  | error e => simp [kafkaRecordPrep, ht] at h
  | ok tOut =>
    cases hk : kafkaResolveKey cfg tOut.st d with
    | error e => simp [kafkaRecordPrep, ht, hk] at h
    | ok p =>
      obtain ⟨keyStr, st2, kStopped⟩ := p
      cases hs : shapeTargets cfg.data_targets d with
      | error e => simp [kafkaRecordPrep, ht, hk, hs] at h
      | ok shaped =>
        cases hv : serializeValue flags shaped with
        | error e => simp [kafkaRecordPrep, ht, hk, hs, hv] at h
        | ok value =>
          cases hw : serializeKey flags keyStr with
          | error e => simp [kafkaRecordPrep, ht, hk, hs, hv, hw] at h
          | ok keyW =>
            simp [kafkaRecordPrep, ht, hk, hs, hv, hw] at h
            rw [← h]

/-- Everything the zset loop body guarantees for one record: the input
object is untouched, the queued command has `nx=True`, its score is the
record's value at the score key read before shaping, and its member is the
serialized shaped record. -/
theorem zsetRecordBody_spec (cfg : RedisCfg) (sk : String) (st : EngState) (u : Record)
    (res : EngState × ZCmd × Record) (h : zsetRecordBody cfg sk st u = .ok res) :
    res.2.2 = u ∧ res.2.1.nx = true ∧ alGet u sk = some res.2.1.score
    ∧ ∃ shaped, shapeTargets cfg.data_targets u = .ok shaped
        ∧ res.2.1.member = jsonDumpsRecord shaped := by
  cases hk : redisResolveKey cfg st u with
  | error e => simp [zsetRecordBody, hk] at h
  | ok p =>
    obtain ⟨keyStr, st2⟩ := p
    cases hsc : alGet u sk with
    | none => simp [zsetRecordBody, hk, hsc] at h
    | some score =>
      cases hs : shapeTargets cfg.data_targets u with
      | error e => simp [zsetRecordBody, hk, hsc, hs] at h
      | ok shaped =>
        simp only [zsetRecordBody, hk, hsc, hs, Except.ok.injEq] at h
        subst h
        exact ⟨rfl, rfl, rfl, shaped, rfl, rfl⟩

/-- Induction along one zset batch: one non-transactional pipeline, one
`execute`, one command per record, inputs untouched. -/
theorem zsetBatchLoop_spec (cfg : RedisCfg) (sk : String) :
    ∀ (us : List Record) (st : EngState) (accC : List ZCmd) (accI : List Record)
      (out : ZBatchOut), zsetBatchLoop cfg sk st accC accI us = .ok out →
      out.transaction = false ∧ out.executeCalls = 1
      ∧ ∃ newCmds : List ZCmd,
          out.cmds = accC.reverse ++ newCmds
          ∧ out.inputsAfter = accI.reverse ++ us
          ∧ newCmds.length = us.length
          ∧ ∀ i (hc : i < newCmds.length) (hu : i < us.length),
              (newCmds.get ⟨i, hc⟩).nx = true
              ∧ alGet (us.get ⟨i, hu⟩) sk = some (newCmds.get ⟨i, hc⟩).score
              ∧ ∃ shaped, shapeTargets cfg.data_targets (us.get ⟨i, hu⟩) = .ok shaped
                  ∧ (newCmds.get ⟨i, hc⟩).member = jsonDumpsRecord shaped := by
  intro us
  induction us with
  | nil =>
    intro st accC accI out h
    simp only [zsetBatchLoop] at h
    injection h with h
    subst h
    refine ⟨rfl, rfl, [], by simp, by simp, rfl, ?_⟩
    intro i hc hu
    simp at hc
  | cons u rest ih =>
    intro st accC accI out h
    cases hb : zsetRecordBody cfg sk st u with
    | error e => simp [zsetBatchLoop, hb] at h
    | ok trip =>
      obtain ⟨st2, cmd, ia⟩ := trip
      obtain ⟨hia, hnx, hscore, shaped, hsh, hmem⟩ :=
        zsetRecordBody_spec cfg sk st u (st2, cmd, ia) hb
      simp only at hia hnx hscore hmem
      subst hia
      simp only [zsetBatchLoop, hb] at h
      obtain ⟨htr, hex, newCmds, hcmds, hinp, hlen, hP⟩ :=
        ih st2 (cmd :: accC) (ia :: accI) out h
      refine ⟨htr, hex, cmd :: newCmds, ?_, ?_, by simp [hlen], ?_⟩
      · rw [hcmds]; simp
      · rw [hinp]; simp
      · intro i hc hu
        cases i with
        | zero => exact ⟨hnx, hscore, shaped, hsh, hmem⟩
        | succ j =>
          exact hP j (by simpa using hc) (by simpa using hu)

/-- C2 counterexample: the append-log (Redis stream) writer *does* mutate
the input record in place: for a record with a `delta` field, the final
state of the input object has `delta` overwritten with its serialized string
form, and differs from the record that was handed in. -/
theorem c2_counterexample_stream_mutates_input :
    streamRecordBody ⟨"book", none, none⟩ freshEng
      [("delta", .obj [("bid", .num 1)]), ("timestamp", .num 5)]
    = .ok (freshEng,
        ⟨"book", [("delta", .str "\x7b\"bid\":1\x7d"), ("timestamp", .num 5)]⟩,
        [("delta", .str "\x7b\"bid\":1\x7d"), ("timestamp", .num 5)])
    ∧ ([("delta", PyVal.str "\x7b\"bid\":1\x7d"), ("timestamp", PyVal.num 5)] : Record)
        ≠ [("delta", .obj [("bid", .num 1)]), ("timestamp", .num 5)] := by
  decide

/-- C2 (amended): routing-key resolution, data shaping and the broker and
sorted-set publish paths leave the record handed to the writer unchanged
(the shaped record is a new dict); the append-log path, however, mutates the
input record in place whenever it contains a `delta`, `book` or `closed`
field (see `c2_counterexample_stream_mutates_input`), and leaves records
without those fields unchanged. -/
theorem c2_input_record_mutation_profile :
    (∀ (cfg : KafkaCfg) (flags : KafkaFlags) (st : EngState) (d : Record)
        (out : KafkaPrep), kafkaRecordPrep cfg flags st d = .ok out →
        out.inputAfter = d)
    ∧ (∀ (cfg : RedisCfg) (sk : String) (st : EngState) (us : List Record)
        (out : ZBatchOut), zsetWriterBatch cfg sk st us = .ok out →
        out.inputsAfter = us)
    ∧ (∀ (cfg : RedisCfg) (st : EngState) (u : Record)
        (res : EngState × XCmd × Record), streamRecordBody cfg st u = .ok res →
        alGet u "delta" = none → alGet u "book" = none → alGet u "closed" = none →
        res.2.2 = u) := by
  refine ⟨kafkaRecordPrep_input, ?_, ?_⟩
  · intro cfg sk st us out h
    obtain ⟨_, _, newCmds, _, hinp, _, _⟩ := zsetBatchLoop_spec cfg sk us st [] [] out h
    simpa using hinp
  · intro cfg st u res h hd hb hc
    rw [streamRecordBody_input cfg st u res h]
    unfold streamMutate
    rw [hd, hb, hc]

/-- Witness for C2: the Kafka writer body at a concrete record leaves the
input object exactly as handed in. -/
theorem c2_witness :
    kafkaRecordPrep ⟨"trades", none, none, none⟩ ⟨false, false⟩ freshEng
      [("side", .str "buy")]
    = .ok ⟨⟨[("topic", "trades")], []⟩, false, [("side", .str "buy")],
        ⟨some "trades", .bytes "\x7b\"side\":\"buy\"\x7d", .bytes "trades", none⟩⟩
    ∧ (⟨⟨[("topic", "trades")], []⟩, false, [("side", .str "buy")],
        ⟨some "trades", .bytes "\x7b\"side\":\"buy\"\x7d", .bytes "trades", none⟩⟩
          : KafkaPrep).inputAfter = [("side", .str "buy")] :=
  ⟨by decide,
   c2_input_record_mutation_profile.1 ⟨"trades", none, none, none⟩ ⟨false, false⟩
     freshEng [("side", .str "buy")] _ (by decide)⟩

/-- C8: for every zset batch that the writer completes, the records are
queued on a single non-transactional pipeline with exactly one `execute`
round trip, one `zadd` per record in arrival order, each with `nx=True`,
member the serialized (possibly shaped) record, and score read from the
*unshaped* record at the configured score key; the constructor default for
that key is "timestamp". -/
theorem c8_zset_batch_pipeline (cfg : RedisCfg) (sk : String) (st : EngState)
    (updates : List Record) (out : ZBatchOut)
    (h : zsetWriterBatch cfg sk st updates = .ok out) :
    out.transaction = false ∧ out.executeCalls = 1
    ∧ out.cmds.length = updates.length
    ∧ (∀ i (hc : i < out.cmds.length) (hu : i < updates.length),
        (out.cmds.get ⟨i, hc⟩).nx = true
        ∧ alGet (updates.get ⟨i, hu⟩) sk = some ((out.cmds.get ⟨i, hc⟩).score)
        ∧ ∃ shaped, shapeTargets cfg.data_targets (updates.get ⟨i, hu⟩) = .ok shaped
            ∧ (out.cmds.get ⟨i, hc⟩).member = jsonDumpsRecord shaped)
    ∧ zsetScoreKey none = "timestamp" := by
  obtain ⟨htr, hex, newCmds, hcmds, hinp, hlen, hP⟩ :=
    zsetBatchLoop_spec cfg sk updates st [] [] out h
  simp only [List.reverse_nil, List.nil_append] at hcmds
  subst hcmds
  exact ⟨htr, hex, hlen, hP, rfl⟩

/-- Witness for C8 on a concrete two-record batch. -/
theorem c8_witness :
    zsetWriterBatch ⟨"trades", none, none⟩ "timestamp" freshEng
      [[("timestamp", .num 9), ("price", .num 1)], [("timestamp", .num 8)]]
    = .ok ⟨freshEng, false,
        [⟨"trades", "\x7b\"timestamp\":9,\"price\":1\x7d", .num 9, true⟩,
         ⟨"trades", "\x7b\"timestamp\":8\x7d", .num 8, true⟩], 1,
        [[("timestamp", .num 9), ("price", .num 1)], [("timestamp", .num 8)]]⟩
    ∧ (⟨freshEng, false,
        [⟨"trades", "\x7b\"timestamp\":9,\"price\":1\x7d", .num 9, true⟩,
         ⟨"trades", "\x7b\"timestamp\":8\x7d", .num 8, true⟩], 1,
        [[("timestamp", .num 9), ("price", .num 1)], [("timestamp", .num 8)]]⟩
          : ZBatchOut).transaction = false
    ∧ (⟨freshEng, false,
        [⟨"trades", "\x7b\"timestamp\":9,\"price\":1\x7d", .num 9, true⟩,
         ⟨"trades", "\x7b\"timestamp\":8\x7d", .num 8, true⟩], 1,
        [[("timestamp", .num 9), ("price", .num 1)], [("timestamp", .num 8)]]⟩
          : ZBatchOut).executeCalls = 1 :=
  ⟨by decide,
   (c8_zset_batch_pipeline ⟨"trades", none, none⟩ "timestamp" freshEng
      [[("timestamp", .num 9), ("price", .num 1)], [("timestamp", .num 8)]] _
      (by decide)).1,
   (c8_zset_batch_pipeline ⟨"trades", none, none⟩ "timestamp" freshEng
      [[("timestamp", .num 9), ("price", .num 1)], [("timestamp", .num 8)]] _
      (by decide)).2.1⟩

/-! ### C3: per-record error isolation on the Kafka path -/

/-- `truthyOpt o = true` forces `o` to carry a (non-empty) string. -/
theorem truthyOpt_some (o : Option String) (h : truthyOpt o = true) :
    ∃ s, o = some s ∧ s ≠ "" := by
  cases o with
  | none => simp [truthyOpt] at h
  | some s =>
    refine ⟨s, rfl, ?_⟩
    simpa [truthyOpt] using h

/-- Resolving a purpose with no template configured never raises, never
stops, always yields a string, and leaves `custom_string_keys` untouched,
provided no key list was recorded for the purpose. -/
theorem gfs_none_total (ch : String) (st : EngState) (p : String) (d : Record)
    (hk : alGet st.custom_string_keys p = none) :
    ∃ s stOut b, get_formatted_string ⟨ch⟩ st p none d = .ok ⟨some s, stOut, b, false⟩
      ∧ stOut.custom_string_keys = st.custom_string_keys := by
  cases hA : truthyOpt (alGet st.custom_strings p) with
  | true =>
    obtain ⟨s, hs, _⟩ := truthyOpt_some _ hA
    have hres : get_formatted_string ⟨ch⟩ st p none d
        = .ok ⟨alGet st.custom_strings p, st, true, false⟩ := by
      simp [get_formatted_string, hA]
    rw [hs] at hres
    exact ⟨s, st, true, hres, rfl⟩
  | false =>
    cases hB : truthyOpt (alGet st.custom_strings (p ++ "-" ++ joinDash [])) with
    | true =>
      obtain ⟨s, hs, _⟩ := truthyOpt_some _ hB
      have hres : get_formatted_string ⟨ch⟩ st p none d
          = .ok ⟨alGet st.custom_strings (p ++ "-" ++ joinDash []), st, true, false⟩ := by
        simp [get_formatted_string, hA, hk, retrKeyVals, hB]
      rw [hs] at hres
      exact ⟨s, st, true, hres, rfl⟩
    | false =>
      refine ⟨ch, ⟨alSet st.custom_strings p ch, st.custom_string_keys⟩, false, ?_, rfl⟩
      simp [get_formatted_string, hA, hk, retrKeyVals, hB]

/-- With no templates and no shaping configured, the Kafka per-record
preparation always succeeds, never stops the writer, and preserves the
absence of a recorded key list for the topic purpose. -/
theorem kafkaRecordPrep_plain (ch : String) (flags : KafkaFlags) (st : EngState)
    (d : Record) (hk : alGet st.custom_string_keys "topic" = none) :
    ∃ prep : KafkaPrep,
      kafkaRecordPrep ⟨ch, none, none, none⟩ flags st d = .ok prep
      ∧ prep.stopped = false
      ∧ alGet prep.st.custom_string_keys "topic" = none := by
  obtain ⟨s, stOut, b, hgfs, hkeys⟩ := gfs_none_total ch st "topic" d hk
  have hval : ∃ w, serializeValue flags d = .ok w := by
    cases hbv : flags.has_value_serializer <;>
      simp [serializeValue, hbv, default_serializer]
  obtain ⟨w, hw⟩ := hval
  have hkey : ∃ kw, serializeKey flags (some ch) = .ok kw := by
    cases hbk : flags.has_key_serializer <;>
      simp [serializeKey, hbk, wireOfKey, default_serializer]
  obtain ⟨kw, hkw⟩ := hkey
  refine ⟨⟨stOut, false, d, ⟨some s, w, kw, none⟩⟩, ?_, rfl, by rw [hkeys]; exact hk⟩
  simp [kafkaRecordPrep, hgfs, kafkaResolveKey, shapeTargets, hw, hkw]

/-- Induction along one Kafka batch with no templates configured: every
record whose send is acknowledged is published, every record whose send
raises is dropped and logged, the loop survives the whole batch, and the
running flag is untouched. -/
theorem kafkaBatchLoop_plain_spec (ch : String) (flags : KafkaFlags)
    (send : Nat → SendOutcome) :
    ∀ (updates : List Record) (index : Nat) (st : EngState) (running : Bool)
      (acc : List RecOutcome), alGet st.custom_string_keys "topic" = none →
      ∃ (stOut : EngState) (newOuts : List RecOutcome),
        kafkaBatchLoop ⟨ch, none, none, none⟩ flags send index st running acc updates
          = .ok ⟨stOut, running, acc.reverse ++ newOuts⟩
        ∧ newOuts.length = updates.length
        ∧ ∀ j (hj : j < newOuts.length),
            (newOuts.get ⟨j, hj⟩).isPublished = (send (index + j) == .acked) := by
  intro updates
  induction updates with
  | nil =>
    intro index st running acc _
    refine ⟨st, [], by simp [kafkaBatchLoop], rfl, ?_⟩
    intro j hj
    simp at hj
  | cons d rest ih =>
    intro index st running acc hk
    obtain ⟨prep, hprep, hstop, hk2⟩ := kafkaRecordPrep_plain ch flags st d hk
    obtain ⟨stOut, newOuts, hloop, hlen, hP⟩ :=
      ih (index + 1) prep.st running
        ((match send index with
          | .acked => RecOutcome.published prep.msg
          | e => RecOutcome.dropped e) :: acc) hk2
    refine ⟨stOut,
      (match send index with
        | .acked => RecOutcome.published prep.msg
        | e => RecOutcome.dropped e) :: newOuts, ?_, by simp [hlen], ?_⟩
    · simp only [kafkaBatchLoop, hprep, hstop, Bool.not_false, Bool.and_true]
      rw [hloop]
      simp
    · intro j hj
      cases j with
      | zero =>
        cases hsi : send index <;> simp [RecOutcome.isPublished, hsi]
      | succ i =>
        have := hP i (by simpa using hj)
        have harith : index + 1 + i = index + (i + 1) := by omega
        rw [harith] at this
        exact this

/-- C3: on the broker path with no templates or shaping configured, one
drain iteration over any batch always completes (no exception escapes the
loop): a record whose send or acknowledgment raises (request timeout, node
not ready, or any other exception) is dropped and logged while every record
whose send is acknowledged is published, and the running flag — hence the
writer loop — is untouched.  In particular a failure on record 3 of a batch
of 5 leaves records 1, 2, 4, 5 published. -/
theorem c3_per_record_send_isolation (ch : String) (flags : KafkaFlags)
    (send : Nat → SendOutcome) (st : EngState) (running : Bool)
    (updates : List Record) (hk : alGet st.custom_string_keys "topic" = none) :
    ∃ out : KafkaBatchOut,
      kafkaWriterBatch ⟨ch, none, none, none⟩ flags send st running updates = .ok out
      ∧ out.running = running
      ∧ out.outcomes.length = updates.length
      ∧ ∀ i (hi : i < out.outcomes.length),
          (out.outcomes.get ⟨i, hi⟩).isPublished = (send i == .acked) := by
  obtain ⟨stOut, newOuts, hloop, hlen, hP⟩ :=
    kafkaBatchLoop_plain_spec ch flags send updates 0 st running [] hk
  refine ⟨⟨stOut, running, newOuts⟩, ?_, rfl, hlen, ?_⟩
  · simpa [kafkaWriterBatch] using hloop
  · intro i hi
    simpa using hP i hi

/-- Witness for C3: a batch of 5 records where record 3 (index 2) raises a
request timeout — records 1, 2, 4 and 5 are published, the failed record is
dropped, the batch completes and the loop keeps running. -/
theorem c3_witness :
    kafkaWriterBatch ⟨"trades", none, none, none⟩ ⟨false, false⟩
      (fun i => if i = 2 then SendOutcome.requestTimedOut else .acked) freshEng true
      [[("n", .num 1)], [("n", .num 2)], [("n", .num 3)], [("n", .num 4)], [("n", .num 5)]]
    = .ok ⟨⟨[("topic", "trades")], []⟩, true,
        [.published ⟨some "trades", .bytes "\x7b\"n\":1\x7d", .bytes "trades", none⟩,
         .published ⟨some "trades", .bytes "\x7b\"n\":2\x7d", .bytes "trades", none⟩,
         .dropped .requestTimedOut,
         .published ⟨some "trades", .bytes "\x7b\"n\":4\x7d", .bytes "trades", none⟩,
         .published ⟨some "trades", .bytes "\x7b\"n\":5\x7d", .bytes "trades", none⟩]⟩
    ∧ (⟨⟨[("topic", "trades")], []⟩, true,
        [.published ⟨some "trades", .bytes "\x7b\"n\":1\x7d", .bytes "trades", none⟩,
         .published ⟨some "trades", .bytes "\x7b\"n\":2\x7d", .bytes "trades", none⟩,
         .dropped .requestTimedOut,
         .published ⟨some "trades", .bytes "\x7b\"n\":4\x7d", .bytes "trades", none⟩,
         .published ⟨some "trades", .bytes "\x7b\"n\":5\x7d", .bytes "trades", none⟩]⟩
        : KafkaBatchOut).running = true := by
  refine ⟨by decide, ?_⟩
  obtain ⟨out, hout, hrun, _, _⟩ :=
    c3_per_record_send_isolation "trades" ⟨false, false⟩
      (fun i => if i = 2 then SendOutcome.requestTimedOut else .acked) freshEng true
      [[("n", .num 1)], [("n", .num 2)], [("n", .num 3)], [("n", .num 4)], [("n", .num 5)]]
      rfl
  have hlit : kafkaWriterBatch ⟨"trades", none, none, none⟩ ⟨false, false⟩
      (fun i => if i = 2 then SendOutcome.requestTimedOut else .acked) freshEng true
      [[("n", .num 1)], [("n", .num 2)], [("n", .num 3)], [("n", .num 4)], [("n", .num 5)]]
    = .ok ⟨⟨[("topic", "trades")], []⟩, true,
        [.published ⟨some "trades", .bytes "\x7b\"n\":1\x7d", .bytes "trades", none⟩,
         .published ⟨some "trades", .bytes "\x7b\"n\":2\x7d", .bytes "trades", none⟩,
         .dropped .requestTimedOut,
         .published ⟨some "trades", .bytes "\x7b\"n\":4\x7d", .bytes "trades", none⟩,
         .published ⟨some "trades", .bytes "\x7b\"n\":5\x7d", .bytes "trades", none⟩]⟩ := by
    decide
  exact Except.ok.inj (hout.symm.trans hlit) ▸ hrun

/-! ### C4: cache idempotence of template resolution -/

/-- `_check_dynamic` records exactly the lowercased dynamic swap list. -/
theorem checkDynKeys_eq (s : String) :
    checkDynKeys s = (_find_swaps s true).map pyLower := rfl

/-- If the store-side key values (built with `data[key]`) exist, the
retrieval-side values (built with `data.get(key)`) are the same. -/
theorem storeKeyVals_retr (d : Record) :
    ∀ (keys : List String) (vs : List String),
      storeKeyVals d keys = .ok vs → retrKeyVals d keys = .ok vs := by
  intro keys
  induction keys with
  | nil =>
    intro vs h
    simpa [storeKeyVals, getItems, strJoinVals, retrKeyVals] using h
  | cons k ks ih =>
    intro vs h
    cases hg : alGet d k with
    | none => simp [storeKeyVals, getItems, hg] at h
    | some v =>
      cases hrest : getItems d ks with
      | error e => simp [storeKeyVals, getItems, hg, hrest, Except.map] at h
      | ok us =>
        cases v with
        | str sv =>
          cases hsj : strJoinVals us with
          | error e =>
            simp [storeKeyVals, getItems, strJoinVals, hg, hrest, hsj, Except.map] at h
          | ok ss =>
            have hih : retrKeyVals d ks = .ok ss :=
              ih ss (by simp [storeKeyVals, hrest, hsj])

            simp only [storeKeyVals, getItems, hg, hrest, strJoinVals, hsj,
              Except.map, Except.ok.injEq] at h
            simp [retrKeyVals, hg, hih, Except.map, ← h]
        | num n => simp [storeKeyVals, getItems, strJoinVals, hg, hrest, Except.map] at h
        | bool b => simp [storeKeyVals, getItems, strJoinVals, hg, hrest, Except.map] at h
        | obj fs => simp [storeKeyVals, getItems, strJoinVals, hg, hrest, Except.map] at h

/-- Retrieval-side key values only depend on the record through the listed
keys. -/
theorem retrKeyVals_congr (d1 d2 : Record) :
    ∀ keys : List String, (∀ k ∈ keys, alGet d2 k = alGet d1 k) →
      retrKeyVals d2 keys = retrKeyVals d1 keys := by
  intro keys
  induction keys with
  | nil => intro _; rfl
  | cons k ks ih =>
    intro hagree
    have hk := hagree k (by simp)
    have hrest := ih (fun k' hk' => hagree k' (by simp [hk']))
    simp [retrKeyVals, hk, hrest]

/-- C4 counterexample: with the template "exchange" (no dynamic tokens in
either record, so their dynamic-field values agree vacuously), a first
record whose `exchange` field is the empty string resolves to `""`; the
cached empty string is falsy, so the second resolution is *not* served from
the cache: it recomputes the substitution and — the static token being read
from the record — even returns a different string. -/
theorem c4_counterexample_empty_string_resolution :
    get_formatted_string ⟨"trades"⟩ freshEng "key" (some "exchange")
      [("exchange", .str "")]
      = .ok ⟨some "", ⟨[("key", "")], [("key", [])]⟩, false, false⟩
    ∧ get_formatted_string ⟨"trades"⟩ ⟨[("key", "")], [("key", [])]⟩ "key"
        (some "exchange") [("exchange", .str "zzz")]
      = .ok ⟨some "zzz", ⟨[("key", "zzz")], [("key", [])]⟩, false, false⟩
    ∧ DYNAMIC_KEYWORDS.all
        (fun k => (alGet ([("exchange", PyVal.str "")] : Record) k).isNone
          && (alGet ([("exchange", PyVal.str "zzz")] : Record) k).isNone) = true
    ∧ ("" : String) ≠ "zzz" := by
  decide

/-- C4 (amended): starting from a fresh instance, if resolving a template
for a purpose returns a *non-empty* string, then resolving the same
template again for a record that agrees with the first on the recorded
dynamic fields returns the identical string, served from the
`custom_strings` cache (keyed on the purpose alone for static results, or
on the purpose joined with the dynamic values for dynamic results) without
recomputing the substitution and without touching the state.  (The
non-emptiness proviso is forced by
`c4_counterexample_empty_string_resolution`: a cached empty string is falsy
in the Python `or` probe and is recomputed.) -/
theorem c4_cache_idempotent_resolution (cfg : MixCfg) (p : String) (tpl : Option String)
    (d1 d2 : Record) (o : GFSOut) (s : String)
    (h1 : get_formatted_string cfg freshEng p tpl d1 = .ok o)
    (h2 : o.result = some s) (h3 : s ≠ "")
    (h5 : ∀ k ∈ (alGet o.st.custom_string_keys p).getD [], alGet d2 k = alGet d1 k) :
    get_formatted_string cfg o.st p tpl d2 = .ok ⟨some s, o.st, true, false⟩ := by
  cases tpl with
  | none =>
    simp [get_formatted_string, freshEng, alGet, truthyOpt, retrKeyVals, alSet] at h1
    subst h1
    simp only [Option.some.injEq] at h2
    subst h2
    simp [get_formatted_string, alGet, truthyOpt, h3]
  | some t =>
    by_cases ht : t = ""
    · subst ht
      simp [get_formatted_string, freshEng, alGet, truthyOpt, retrKeyVals, alSet] at h1
      subst h1
      simp only [Option.some.injEq] at h2
      subst h2
      simp [get_formatted_string, alGet, truthyOpt, h3]
    · have htb : (t == "") = false := by simp [ht]
      cases hcs : _customize_string cfg t d1 false with
      | error e =>
        simp [get_formatted_string, freshEng, alGet, truthyOpt, retrKeyVals, htb, hcs] at h1
      | ok pr =>
        obtain ⟨standard, junk⟩ := pr
        cases hkl : checkDynKeys standard with
        | nil =>
          simp [get_formatted_string, freshEng, alGet, truthyOpt, retrKeyVals, htb,
            hcs, hkl, alSet] at h1
          subst h1
          simp only [Option.some.injEq] at h2
          subst h2
          simp [get_formatted_string, alGet, truthyOpt, h3]
        | cons k0 krest =>
          cases hds : _customize_string cfg standard d1 true with
          | error e =>
            simp [get_formatted_string, freshEng, alGet, truthyOpt, retrKeyVals, htb,
              hcs, hkl, hds] at h1
          | ok pr2 =>
            obtain ⟨dyn, key_list⟩ := pr2
            cases hsv : storeKeyVals d1 key_list with
            | error e =>
              cases e with
              | keyError =>
                simp [get_formatted_string, freshEng, alGet, truthyOpt, retrKeyVals,
                  htb, hcs, hkl, hds, hsv] at h1
                subst h1
                simp at h2
              | typeError =>
                simp [get_formatted_string, freshEng, alGet, truthyOpt, retrKeyVals,
                  htb, hcs, hkl, hds, hsv] at h1
              | systemExit =>
                simp [get_formatted_string, freshEng, alGet, truthyOpt, retrKeyVals,
                  htb, hcs, hkl, hds, hsv] at h1
            | ok vals2 =>
              simp [get_formatted_string, freshEng, alGet, truthyOpt, retrKeyVals,
                htb, hcs, hkl, hds, hsv, alSet] at h1
              subst h1
              simp only [Option.some.injEq] at h2
              subst h2
              have hkeq : key_list = checkDynKeys standard := by
                rw [checkDynKeys_eq]
                cases hsw : _swap_items cfg d1 standard (_find_swaps standard true) with
                | error e => simp [_customize_string, hsw] at hds
                | ok cs =>
                  simp [_customize_string, hsw] at hds
                  exact hds.2.symm
              have hagree : ∀ k ∈ k0 :: krest, alGet d2 k = alGet d1 k := by
                simpa [alGet] using h5
              have hretr1 : retrKeyVals d1 key_list = .ok vals2 :=
                storeKeyVals_retr d1 key_list vals2 hsv
              have hretr2 : retrKeyVals d2 (k0 :: krest) = .ok vals2 := by
                rw [retrKeyVals_congr d1 d2 _ hagree, ← hkl, ← hkeq]
                exact hretr1
              have hpk : ((p ++ "-" ++ joinDash vals2) == p) = false := by
                simp only [beq_eq_false_iff_ne, ne_eq]
                exact fun hh => ne_append_dash p (joinDash vals2) hh.symm
              simp [get_formatted_string, alGet, truthyOpt, hpk, hretr2, h3]

/-- Witness for C4: the dynamic template "symbol" resolved twice against
records with the identical symbol value; the second call is a pure cache
hit. -/
theorem c4_witness :
    get_formatted_string ⟨"trades"⟩ freshEng "key" (some "symbol")
      [("symbol", .str "btc")]
      = .ok ⟨some "btc", ⟨[("key-btc", "btc")], [("key", ["symbol"])]⟩, false, false⟩
    ∧ get_formatted_string ⟨"trades"⟩ ⟨[("key-btc", "btc")], [("key", ["symbol"])]⟩
        "key" (some "symbol") [("symbol", .str "btc")]
      = .ok ⟨some "btc", ⟨[("key-btc", "btc")], [("key", ["symbol"])]⟩, true, false⟩ :=
  ⟨by decide,
   c4_cache_idempotent_resolution ⟨"trades"⟩ "key" (some "symbol")
     [("symbol", .str "btc")] [("symbol", .str "btc")]
     ⟨some "btc", ⟨[("key-btc", "btc")], [("key", ["symbol"])]⟩, false, false⟩
     "btc" (by decide) (by decide) (by decide) (by decide)⟩

/-! ### C10: defaulting to the channel name -/

/-- One no-template resolution step under the invariant that no key list and
no dynamic-form entry exist for the purpose: the call returns the channel
name, caches it under the purpose alone, and preserves the invariant. -/
theorem gfs_none_step (ch p : String) (d : Record) (st : EngState)
    (hA : alGet st.custom_strings p = none ∨ alGet st.custom_strings p = some ch)
    (hK : alGet st.custom_string_keys p = none)
    (hB : alGet st.custom_strings (p ++ "-" ++ joinDash []) = none) :
    ∃ st2 b, get_formatted_string ⟨ch⟩ st p none d = .ok ⟨some ch, st2, b, false⟩
      ∧ alGet st2.custom_strings p = some ch
      ∧ alGet st2.custom_string_keys p = none
      ∧ alGet st2.custom_strings (p ++ "-" ++ joinDash []) = none := by
  have hne : (p ++ "-" ++ joinDash []) ≠ p := fun hh =>
    ne_append_dash p (joinDash []) hh.symm
  rcases hA with hA | hA
  · refine ⟨⟨alSet st.custom_strings p ch, st.custom_string_keys⟩, false, ?_,
      alGet_alSet_self _ _ _, hK, ?_⟩
    · simp [get_formatted_string, hA, truthyOpt, hK, retrKeyVals, hB]
    · rw [alGet_alSet_ne _ _ _ _ hne]
      exact hB
  · by_cases hch : ch = ""
    · subst hch
      refine ⟨⟨alSet st.custom_strings p "", st.custom_string_keys⟩, false, ?_,
        alGet_alSet_self _ _ _, hK, ?_⟩
      · simp [get_formatted_string, hA, truthyOpt, hK, retrKeyVals, hB]
      · rw [alGet_alSet_ne _ _ _ _ hne]
        exact hB
    · refine ⟨st, true, ?_, hA, hK, hB⟩
      simp [get_formatted_string, hA, truthyOpt, hch]

/-- Resolving a purpose with no configured template over any stream of
records returns the channel name every time and ends with the channel name
cached under the purpose alone. -/
theorem resolveSeq_none_spec (ch p : String) :
    ∀ (ds : List Record) (st : EngState),
      (alGet st.custom_strings p = none ∨ alGet st.custom_strings p = some ch) →
      alGet st.custom_string_keys p = none →
      alGet st.custom_strings (p ++ "-" ++ joinDash []) = none →
      ∃ st2, resolveSeq ⟨ch⟩ p none st ds = .ok (ds.map (fun _ => some ch), st2)
        ∧ (ds = [] → st2 = st)
        ∧ (ds ≠ [] → alGet st2.custom_strings p = some ch) := by
  intro ds
  induction ds with
  | nil =>
    intro st _ _ _
    exact ⟨st, rfl, fun _ => rfl, fun hne => absurd rfl hne⟩
  | cons d rest ih =>
    intro st hA hK hB
    obtain ⟨stM, b, hstep, hA2, hK2, hB2⟩ := gfs_none_step ch p d st hA hK hB
    obtain ⟨st2, hseq, hwhennil, hwhenne⟩ := ih stM (Or.inr hA2) hK2 hB2
    refine ⟨st2, ?_, ?_, ?_⟩
    · simp only [resolveSeq, hstep, hseq, List.map_cons]
    · intro hh
      simp at hh
    · intro _
      cases rest with
      | nil => rw [hwhennil rfl]; exact hA2
      | cons r rs => exact hwhenne (by simp)

/-- The message key of the Kafka writer when no key template is configured
is the channel name (raw for a user key serializer, utf-8 bytes for the
default one). -/
theorem kafkaKey_default (ch : String) (tt : Option String)
    (dt : Option (List (String × String))) (flags : KafkaFlags) (st : EngState)
    (d : Record) (out : KafkaPrep)
    (h : kafkaRecordPrep ⟨ch, tt, none, dt⟩ flags st d = .ok out) :
    out.msg.key = (if flags.has_key_serializer then Wire.strVal ch else Wire.bytes ch) := by
  cases ht : get_formatted_string ⟨ch⟩ st "topic" tt d with
  | error e => simp [kafkaRecordPrep, ht] at h
  | ok tOut =>
    cases hs : shapeTargets dt d with
    | error e => simp [kafkaRecordPrep, ht, kafkaResolveKey, hs] at h
    | ok shaped =>
      cases hv : serializeValue flags shaped with
      | error e => simp [kafkaRecordPrep, ht, kafkaResolveKey, hs, hv] at h
      | ok value =>
        cases hbk : flags.has_key_serializer with
        | true =>
          have hsk : serializeKey flags (some ch) = .ok (.strVal ch) := by
            simp [serializeKey, hbk, wireOfKey]
          simp only [kafkaRecordPrep, ht, kafkaResolveKey, hs, hv, hsk,
            Except.ok.injEq] at h
          rw [← h]
          simp [hbk]
        | false =>
          have hsk : serializeKey flags (some ch) = .ok (.bytes ch) := by
            simp [serializeKey, hbk, wireOfKey, default_serializer]
          simp only [kafkaRecordPrep, ht, kafkaResolveKey, hs, hv, hsk,
            Except.ok.injEq] at h
          rw [← h]
          simp [hbk]

/-- C10: for a sink instance with no template configured for a purpose,
resolving that purpose returns the channel name for every record of the
stream and caches it under the purpose alone; on the Kafka path, the
message key likewise defaults to the channel name when no key template is
configured. -/
theorem c10_default_channel_name_routing (ch p : String) (ds : List Record)
    (hne : ds ≠ []) :
    (∃ st2, resolveSeq ⟨ch⟩ p none freshEng ds = .ok (ds.map (fun _ => some ch), st2)
        ∧ alGet st2.custom_strings p = some ch)
    ∧ ∀ (tt : Option String) (dt : Option (List (String × String)))
        (flags : KafkaFlags) (st : EngState) (d : Record) (out : KafkaPrep),
        kafkaRecordPrep ⟨ch, tt, none, dt⟩ flags st d = .ok out →
        out.msg.key = (if flags.has_key_serializer then Wire.strVal ch else Wire.bytes ch) := by
  constructor
  · obtain ⟨st2, hseq, _, hcache⟩ :=
      resolveSeq_none_spec ch p ds freshEng (Or.inl rfl) rfl rfl
    exact ⟨st2, hseq, hcache hne⟩
  · intro tt dt flags st d out h
    exact kafkaKey_default ch tt dt flags st d out h

/-- Witness for C10 at a concrete one-record stream and one concrete Kafka
record preparation. -/
theorem c10_witness :
    resolveSeq ⟨"trades"⟩ "key" none freshEng [[("x", .num 1)]]
      = .ok ([some "trades"], ⟨[("key", "trades")], []⟩)
    ∧ kafkaRecordPrep ⟨"trades", none, none, none⟩ ⟨false, false⟩ freshEng
        [("x", .num 1)]
      = .ok ⟨⟨[("topic", "trades")], []⟩, false, [("x", .num 1)],
          ⟨some "trades", .bytes "\x7b\"x\":1\x7d", .bytes "trades", none⟩⟩
    ∧ (⟨⟨[("topic", "trades")], []⟩, false, [("x", .num 1)],
          ⟨some "trades", .bytes "\x7b\"x\":1\x7d", .bytes "trades", none⟩⟩
        : KafkaPrep).msg.key = .bytes "trades" := by
  refine ⟨by decide, by decide, ?_⟩
  have hk := (c10_default_channel_name_routing "trades" "key" [[("x", .num 1)]]
      (by decide)).2 none none ⟨false, false⟩ freshEng [("x", .num 1)]
      ⟨⟨[("topic", "trades")], []⟩, false, [("x", .num 1)],
        ⟨some "trades", .bytes "\x7b\"x\":1\x7d", .bytes "trades", none⟩⟩
      (by decide)
  simpa using hk
